import Mathlib

/-!
Verification of the client-side key-management and vault-encryption core of
the `pswd` password manager (frontend `SecureCrypto` module, the `crypto.ts`
helpers, and the register/login/logout flows that drive them).

The TypeScript source calls libsodium; libsodium itself is an external
collaborator, so its primitives are modelled symbolically below: an
authenticated cipher whose ciphertext determines message, nonce and key
(idealizing XSalsa20-Poly1305's authenticity), a hash modelled as an
injective tagging function (idealizing BLAKE2b collision resistance), and a
random source modelled as an explicit counter threaded through the calls in
source order.  Everything above the primitive layer is a direct translation
of the repository code.
-/

namespace Pswd

/-- Byte strings.  Elements are unbounded naturals: the symbolic primitive
models below use values outside 0..255 only inside ciphertexts/hashes, which
the repository code treats as opaque. -/
abbrev Bytes := List Nat

/-! ## Constants of libsodium used by the source -/

def crypto_secretbox_KEYBYTES : Nat := 32

def crypto_secretbox_NONCEBYTES : Nat := 24

def crypto_pwhash_SALTBYTES : Nat := 16

def crypto_box_NONCEBYTES : Nat := 24

def crypto_pwhash_OPSLIMIT_INTERACTIVE : Nat := 2

def crypto_pwhash_MEMLIMIT_INTERACTIVE : Nat := 67108864

def crypto_pwhash_ALG_DEFAULT : Nat := 2

/-! ## Symbolic model of the libsodium primitives -/

/-- Model of `sodium.crypto_secretbox_easy`: authenticated secret-key
encryption.  The symbolic ciphertext is the message followed by an
authentication block recording message length, nonce, key and a second copy
of the message; `crypto_secretbox_open_easy` recomputes and checks the whole
ciphertext, which makes authentication exact (the idealization of the
Poly1305 tag).  Only the functional contract of the real cipher is kept:
decryption with the exact nonce and key recovers the message, and any other
ciphertext/nonce/key combination is rejected. -/
def crypto_secretbox_easy (m n k : Bytes) : Bytes :=
  m ++ m.length :: (n ++ k ++ m)

/-- Model of `sodium.crypto_secretbox_open_easy`.  The source throws on
failure; the model returns `none` there. -/
def crypto_secretbox_open_easy (c n k : Bytes) : Option Bytes :=
  if 1 + n.length + k.length ≤ c.length ∧
      (c.length - (1 + n.length + k.length)) % 2 = 0 then
    let m := c.take ((c.length - (1 + n.length + k.length)) / 2)
    if c = crypto_secretbox_easy m n k then some m else none
  else none

/-- Model of `sodium.crypto_pwhash` (Argon2id): a deterministic function of
all of its inputs.  The memory-hardness and output length of the real hash
play no role in the claims. -/
def crypto_pwhash (outlen : Nat) (password salt : Bytes)
    (opsLimit memLimit alg : Nat) : Bytes :=
  outlen :: opsLimit :: memLimit :: alg :: (password ++ salt)

/-- Model of `sodium.crypto_generichash` (BLAKE2b): collision resistance is
idealized as injectivity, so the hash simply tags its input with the
requested output length. -/
def crypto_generichash (outlen : Nat) (message : Bytes) : Bytes :=
  outlen :: message

/-- Model of `sodium.randombytes_buf`: the caller threads an explicit
counter `c`, incremented between draws in the order the source makes them;
distinct counters give distinct buffers. -/
def randombytes_buf (n : Nat) (c : Nat) : Bytes :=
  List.replicate n c

/-- Model of `sodium.memzero`: overwrite a buffer with zeros. -/
def sodium_memzero (b : Bytes) : Bytes :=
  List.replicate b.length 0

/-- A libsodium key pair. -/
structure KeyPair where
  publicKey : Bytes
  privateKey : Bytes
  deriving DecidableEq, Repr

/-- Model of `sodium.crypto_kx_keypair` (X25519): the pair drawn at counter
`c`.  Public halves are even-valued, private halves odd-valued, so the two
halves of any pairs are never equal. -/
def crypto_kx_keypair (c : Nat) : KeyPair :=
  { publicKey := List.replicate 32 (2 * c), privateKey := List.replicate 32 (2 * c + 1) }

/-- Model of `sodium.crypto_sign_keypair` (Ed25519, 64-byte secret key). -/
def crypto_sign_keypair (c : Nat) : KeyPair :=
  { publicKey := List.replicate 32 (2 * c), privateKey := List.replicate 64 (2 * c + 1) }

/-- Model of `sodium.crypto_box_keypair` (Curve25519). -/
def crypto_box_keypair (c : Nat) : KeyPair :=
  { publicKey := List.replicate 32 (2 * c), privateKey := List.replicate 32 (2 * c + 1) }

/-- Model of `sodium.to_base64`: base64 is a bijective transport encoding
between byte strings and strings, so it is the identity on the byte-level
content. -/
def to_base64 (b : Bytes) : Bytes := b

/-- Model of `sodium.from_base64`, the inverse of `to_base64`. -/
def from_base64 (s : Bytes) : Bytes := s

/-- Model of `sodium.from_string` (UTF-8 encoding of a JS string). -/
def from_string (s : Bytes) : Bytes := s

/-- Model of `sodium.to_string`, the inverse of `from_string`. -/
def to_string (b : Bytes) : Bytes := b

/-- Model of the browser `btoa`, again a bijective transport encoding. -/
def btoa (s : Bytes) : Bytes := s

/-- A JSON-serializable value, identified with its serialization: the
claims only use that `JSON.parse` inverts `JSON.stringify` on such values
(structural equality), which this quotiented representation gives exactly. -/
structure JsonValue where
  text : Bytes
  deriving DecidableEq, Repr

/-- Model of `JSON.stringify` on JSON-serializable values. -/
def jsonStringify (j : JsonValue) : Bytes := j.text

/-- Model of `JSON.parse`. -/
def jsonParse (s : Bytes) : Option JsonValue := some ⟨s⟩

/-! ## Basic lemmas about the primitive models -/

theorem length_crypto_secretbox_easy (m n k : Bytes) :
    (crypto_secretbox_easy m n k).length =
      m.length + 1 + n.length + k.length + m.length := by
  simp [crypto_secretbox_easy]
  omega

theorem take_crypto_secretbox_easy (m n k : Bytes) :
    (crypto_secretbox_easy m n k).take m.length = m := by
  unfold crypto_secretbox_easy
  exact List.take_left m (m.length :: (n ++ k ++ m))

theorem crypto_secretbox_easy_eq_append (m n k : Bytes) :
    crypto_secretbox_easy m n k = (m ++ m.length :: (n ++ k)) ++ m := by
  simp [crypto_secretbox_easy]

theorem drop_crypto_secretbox_easy (m n k : Bytes) :
    (crypto_secretbox_easy m n k).drop (m.length + 1 + n.length + k.length) = m := by
  have h : (m ++ m.length :: (n ++ k)).length = m.length + 1 + n.length + k.length := by
    simp
    omega
  rw [crypto_secretbox_easy_eq_append, ← h, List.drop_left]

/-- Decryption with the exact nonce and key recovers the message. -/
theorem crypto_secretbox_open_easy_enc (m n k : Bytes) :
    crypto_secretbox_open_easy (crypto_secretbox_easy m n k) n k = some m := by
  have hlen := length_crypto_secretbox_easy m n k
  unfold crypto_secretbox_open_easy
  rw [if_pos (by omega)]
  have hm : ((crypto_secretbox_easy m n k).length - (1 + n.length + k.length)) / 2
      = m.length := by omega
  simp only [hm, take_crypto_secretbox_easy, if_pos rfl]
  simp

/-- Authenticity of the model cipher: a successful decryption identifies the
ciphertext as the honest encryption of the returned message. -/
theorem crypto_secretbox_open_easy_eq_some {c n k m : Bytes}
    (h : crypto_secretbox_open_easy c n k = some m) :
    c = crypto_secretbox_easy m n k := by
  unfold crypto_secretbox_open_easy at h
  by_cases h1 : 1 + n.length + k.length ≤ c.length ∧
      (c.length - (1 + n.length + k.length)) % 2 = 0
  · rw [if_pos h1] at h
    by_cases h2 : c = crypto_secretbox_easy
        (c.take ((c.length - (1 + n.length + k.length)) / 2)) n k
    · rw [if_pos h2] at h
      obtain rfl : c.take ((c.length - (1 + n.length + k.length)) / 2) = m :=
        Option.some.inj h
      exact h2
    · rw [if_neg h2] at h
      exact absurd h (by simp)
  · rw [if_neg h1] at h
    exact absurd h (by simp)

/-! ## Tamper lemmas for the model cipher -/

theorem take_set_of_le {l : Bytes} {p v q : Nat} (h : q ≤ p) :
    (l.set p v).take q = l.take q := by
  rw [List.set_take]
  exact List.set_eq_of_length_le (le_trans (by simp) h)

theorem drop_set_of_lt {l : Bytes} {p v q : Nat} (h : p < q) :
    (l.set p v).drop q = l.drop q := by
  rw [List.drop_set, if_pos h]

theorem drop_set_of_le {l : Bytes} {p v q : Nat} (h : q ≤ p) :
    (l.set p v).drop q = (l.drop q).set (p - q) v := by
  rw [List.drop_set, if_neg (by omega)]

/-- Overwriting any single position of a model ciphertext with a different
value makes decryption fail. -/
theorem crypto_secretbox_open_easy_set_ne (m n k : Bytes) {p v : Nat}
    (hp : p < (crypto_secretbox_easy m n k).length)
    (hv : v ≠ (crypto_secretbox_easy m n k).getD p 0) :
    crypto_secretbox_open_easy ((crypto_secretbox_easy m n k).set p v) n k = none := by
  cases h : crypto_secretbox_open_easy ((crypto_secretbox_easy m n k).set p v) n k with
  | none => rfl
  | some m' =>
    exfalso
    have heq := crypto_secretbox_open_easy_eq_some h
    have hm' : m'.length = m.length := by
      have h1 := congrArg List.length heq
      rw [List.length_set, length_crypto_secretbox_easy,
        length_crypto_secretbox_easy] at h1
      omega
    have hmm : m' = m := by
      by_cases hplt : p < m.length
      · have h1 : ((crypto_secretbox_easy m n k).set p v).drop
            (m.length + 1 + n.length + k.length) =
            (crypto_secretbox_easy m n k).drop (m.length + 1 + n.length + k.length) :=
          drop_set_of_lt (by omega)
        rw [heq, drop_crypto_secretbox_easy] at h1
        conv at h1 => lhs; rw [show m.length = m'.length from hm'.symm]
        rw [drop_crypto_secretbox_easy] at h1
        exact h1
      · have h1 : ((crypto_secretbox_easy m n k).set p v).take m.length =
            (crypto_secretbox_easy m n k).take m.length :=
          take_set_of_le (by omega)
        rw [heq, take_crypto_secretbox_easy] at h1
        conv at h1 => lhs; rw [show m.length = m'.length from hm'.symm]
        rw [take_crypto_secretbox_easy] at h1
        exact h1
    subst hmm
    have hid : (crypto_secretbox_easy m' n k).set p v = crypto_secretbox_easy m' n k :=
      heq
    have hclash : ((crypto_secretbox_easy m' n k).set p v).getD p 0 =
        (crypto_secretbox_easy m' n k).getD p 0 := by rw [hid]
    rw [List.getD_eq_getElem _ _ (by simpa using hp),
      List.getD_eq_getElem _ _ hp, List.getElem_set_self] at hclash
    exact hv (by rw [hclash, ← List.getD_eq_getElem _ 0 hp])

/-- Decrypting with a different nonce of the same length fails. -/
theorem crypto_secretbox_open_easy_wrong_nonce (m n k : Bytes) {n' : Bytes}
    (hlen : n'.length = n.length) (hne : n' ≠ n) :
    crypto_secretbox_open_easy (crypto_secretbox_easy m n k) n' k = none := by
  cases h : crypto_secretbox_open_easy (crypto_secretbox_easy m n k) n' k with
  | none => rfl
  | some m' =>
    exfalso
    have heq := crypto_secretbox_open_easy_eq_some h
    have hm' : m'.length = m.length := by
      have h1 := congrArg List.length heq
      rw [length_crypto_secretbox_easy, length_crypto_secretbox_easy, hlen] at h1
      omega
    have hmm : m' = m := by
      have h1 := congrArg (fun l => List.take m.length l) heq
      simp only [take_crypto_secretbox_easy] at h1
      conv at h1 => rhs; rw [show m.length = m'.length from hm'.symm]
      rw [take_crypto_secretbox_easy] at h1
      exact h1.symm
    subst hmm
    unfold crypto_secretbox_easy at heq
    have h2 := List.append_cancel_left heq
    have h3 : n ++ (k ++ m') = n' ++ (k ++ m') := by
      have := List.cons.inj h2
      simpa [List.append_assoc] using this.2
    exact hne (List.append_cancel_right h3.symm)

/-- Flip bit `j` of the byte at position `i`. -/
def flipBit (l : Bytes) (i j : Nat) : Bytes :=
  l.set i ((l.getD i 0) ^^^ 2 ^ j)

theorem xor_two_pow_ne (a j : Nat) : a ^^^ 2 ^ j ≠ a := by
  intro h
  have h2 : a ^^^ (a ^^^ 2 ^ j) = a ^^^ a := by rw [h]
  rw [← Nat.xor_assoc, Nat.xor_self, Nat.zero_xor] at h2
  have := Nat.two_pow_pos j
  omega

/-- Flipping any bit of the `nonce ‖ ciphertext` blob makes decryption with
the blob's own nonce slice fail. -/
theorem crypto_secretbox_open_easy_flip (m n k : Bytes)
    (hn : n.length = crypto_secretbox_NONCEBYTES) {i : Nat} (j : Nat)
    (hi : i < (n ++ crypto_secretbox_easy m n k).length) :
    crypto_secretbox_open_easy
      ((flipBit (n ++ crypto_secretbox_easy m n k) i j).drop crypto_secretbox_NONCEBYTES)
      ((flipBit (n ++ crypto_secretbox_easy m n k) i j).take crypto_secretbox_NONCEBYTES)
      k = none := by
  set c := crypto_secretbox_easy m n k with hc
  set v := ((n ++ c).getD i 0) ^^^ 2 ^ j with hvdef
  by_cases hlt : i < crypto_secretbox_NONCEBYTES
  · -- the flip hits the nonce part
    have htake : (flipBit (n ++ c) i j).take crypto_secretbox_NONCEBYTES
        = n.set i v := by
      rw [flipBit, ← hvdef, List.set_take, List.take_left' hn]
    have hdrop : (flipBit (n ++ c) i j).drop crypto_secretbox_NONCEBYTES = c := by
      rw [flipBit, ← hvdef, drop_set_of_lt hlt, List.drop_left' hn]
    rw [htake, hdrop]
    have hilen : i < n.length := by omega
    have hgd : (n ++ c).getD i 0 = n.getD i 0 := by
      rw [List.getD_eq_getElem _ _ hi, List.getD_eq_getElem _ _ hilen,
        List.getElem_append_left hilen]
    apply crypto_secretbox_open_easy_wrong_nonce m n k (by simp)
    intro hset
    have : (n.set i v).getD i 0 = n.getD i 0 := by rw [hset]
    rw [List.getD_eq_getElem _ _ (by simpa using hilen),
      List.getD_eq_getElem _ _ hilen, List.getElem_set_self,
      ← List.getD_eq_getElem n 0 hilen] at this
    rw [hvdef, hgd] at this
    exact xor_two_pow_ne _ _ this
  · -- the flip hits the ciphertext part
    have hge : crypto_secretbox_NONCEBYTES ≤ i := by omega
    have hnge : n.length ≤ i := by omega
    have htake : (flipBit (n ++ c) i j).take crypto_secretbox_NONCEBYTES = n := by
      rw [flipBit, ← hvdef, take_set_of_le hge, List.take_left' hn]
    have hdrop : (flipBit (n ++ c) i j).drop crypto_secretbox_NONCEBYTES
        = c.set (i - crypto_secretbox_NONCEBYTES) v := by
      rw [flipBit, ← hvdef, drop_set_of_le hge, List.drop_left' hn]
    rw [htake, hdrop]
    have hic : i - crypto_secretbox_NONCEBYTES < c.length := by
      simp only [List.length_append] at hi
      omega
    have hgd : (n ++ c).getD i 0 = c.getD (i - crypto_secretbox_NONCEBYTES) 0 := by
      rw [List.getD_eq_getElem _ _ hi, List.getD_eq_getElem _ _ hic,
        List.getElem_append_right hnge]
      congr 1
      omega
    apply crypto_secretbox_open_easy_set_ne m n k hic
    rw [hvdef, hgd]
    exact xor_two_pow_ne _ _

/-! ## SecureStorage (SecureCrypto module, `class SecureStorage`)

The in-memory session key is modelled as a memory cell: `sessionKeyBuffer`
holds the bytes of the allocated `Uint8Array` (they persist until the
garbage collector reclaims them, which is what zeroization claims are
about), and `sessionKeyLive` says whether `this.sessionKey` still references
it (`null` ⇔ `false`).  The IndexedDB object store is an association list
from keys to the encrypted strings the source stores. -/

/-- IndexedDB object-store content: insertion-ordered records. -/
abbrev Store := List (String × Bytes)

def storeGet (s : Store) (key : String) : Option Bytes :=
  match s with
  | [] => none
  | (a, v) :: rest => if a = key then some v else storeGet rest key

/-- `IDBObjectStore.put` with an explicit key overwrites the record. -/
def storePut (s : Store) (key : String) (value : Bytes) : Store :=
  (key, value) :: s.filter (fun p => p.1 ≠ key)

/-- `IDBObjectStore.delete`. -/
def storeDelete (s : Store) (key : String) : Store :=
  s.filter (fun p => p.1 ≠ key)

structure SecureStorageState where
  sessionKeyBuffer : Bytes
  sessionKeyLive : Bool
  store : Store
  deriving DecidableEq, Repr

/-- The value of `this.sessionKey` (`null` modelled as `none`). -/
def SecureStorageState.sessionKey (st : SecureStorageState) : Option Bytes :=
  if st.sessionKeyLive then some st.sessionKeyBuffer else none

namespace SecureStorage

/-- `SecureStorage.init`: generates the session-specific encryption key if
absent (`randombytes_buf(crypto_secretbox_KEYBYTES)`), opens the database
and registers the `beforeunload` handler (modelled separately as
`handleBeforeUnload`). -/
def init (st : SecureStorageState) (rnd : Nat) : SecureStorageState :=
  if st.sessionKeyLive then st
  else { st with
    sessionKeyBuffer := randombytes_buf crypto_secretbox_KEYBYTES rnd
    sessionKeyLive := true }

/-- The `beforeunload` listener registered by `init`: if the session key is
live, `sodium.memzero` overwrites its buffer and the reference is nulled. -/
def handleBeforeUnload (st : SecureStorageState) : SecureStorageState :=
  if st.sessionKeyLive then
    { st with
      sessionKeyBuffer := sodium_memzero st.sessionKeyBuffer
      sessionKeyLive := false }
  else st

/-- `SecureStorage.encryptData`: throws (`none`) when the session key is
absent; otherwise returns `to_base64(nonce ‖ secretbox(data, nonce, key))`
with a nonce freshly drawn at counter `rnd`. -/
def encryptData (st : SecureStorageState) (rnd : Nat) (data : Bytes) : Option Bytes :=
  match st.sessionKey with
  | none => none
  | some key =>
    let nonce := randombytes_buf crypto_secretbox_NONCEBYTES rnd
    let message := from_string data
    let ciphertext := crypto_secretbox_easy message nonce key
    some (to_base64 (nonce ++ ciphertext))

/-- `SecureStorage.decryptData`: splits the decoded blob at
`crypto_secretbox_NONCEBYTES` and opens it; both the missing-key throw and
the `crypto_secretbox_open_easy` throw are modelled as `none`. -/
def decryptData (st : SecureStorageState) (encryptedData : Bytes) : Option Bytes :=
  match st.sessionKey with
  | none => none
  | some key =>
    let combined := from_base64 encryptedData
    let nonce := combined.take crypto_secretbox_NONCEBYTES
    let ciphertext := combined.drop crypto_secretbox_NONCEBYTES
    (crypto_secretbox_open_easy ciphertext nonce key).map to_string

/-- `SecureStorage.set`: encrypt, then put.  Failures of `encryptData`
propagate to the caller (`none`). -/
def set (st : SecureStorageState) (rnd : Nat) (key : String) (value : Bytes) :
    Option SecureStorageState :=
  (encryptData st rnd value).map fun encrypted =>
    { st with store := storePut st.store key encrypted }

/-- `SecureStorage.get`: resolves `null` (`none`) when the record is absent
AND when `decryptData` throws — the catch block logs the error and resolves
`null`, so a decryption failure is indistinguishable from absence. -/
def get (st : SecureStorageState) (key : String) : Option Bytes :=
  match storeGet st.store key with
  | none => none
  | some record =>
    match decryptData st record with
    | some decrypted => some decrypted
    | none => none

/-- `SecureStorage.remove`. -/
def remove (st : SecureStorageState) (key : String) : SecureStorageState :=
  { st with store := storeDelete st.store key }

end SecureStorage

/-! ## CryptoManager (SecureCrypto module, `class CryptoManager`)

The singleton `cryptoManager` owns a `SecureStorage`; its state is the
`SecureStorageState` above.  Random draws are threaded as counters in the
order the source makes them. -/

namespace CryptoManager

/-- `CryptoManager.deriveKeyFromPassword`. -/
def deriveKeyFromPassword (password : Bytes) (salt : Bytes) : Bytes :=
  crypto_pwhash crypto_secretbox_KEYBYTES password salt
    crypto_pwhash_OPSLIMIT_INTERACTIVE crypto_pwhash_MEMLIMIT_INTERACTIVE
    crypto_pwhash_ALG_DEFAULT

/-- Stable attributes read from `window.navigator` and `window.screen` in
`generateDeviceFingerprint` (each one a string). -/
structure DeviceInfo where
  userAgent : Bytes
  language : Bytes
  colorDepth : Bytes
  widthXheight : Bytes
  timezoneOffset : Bytes
  deriving DecidableEq, Repr

/-- Model of `Math.random().toString(36).substring(2, 15)`: the string
produced by the `rand`-th draw of `Math.random()`. -/
def mathRandomString (rand : Nat) : Bytes := [rand]

/-- The `components` array built in `generateDeviceFingerprint`, including
the per-call random component. -/
def fingerprintComponents (dev : DeviceInfo) (rand : Nat) : List Bytes :=
  [dev.userAgent, dev.language, dev.colorDepth, dev.widthXheight,
    dev.timezoneOffset, mathRandomString rand]

/-- `components.join("|")` (the byte 124 is the pipe character). -/
def joinPipe (l : List Bytes) : Bytes :=
  (List.intersperse [124] l).flatten

/-- The fingerprint computed when nothing is stored yet:
`btoa(components.join("|"))`. -/
def freshFingerprint (dev : DeviceInfo) (rand : Nat) : Bytes :=
  btoa (joinPipe (fingerprintComponents dev rand))

/-- `CryptoManager.generateDeviceFingerprint`: returns the stored
fingerprint if present, otherwise computes a fresh one (with a fresh
`Math.random()` component drawn at `rand`), stores it (nonce counter `rnd`)
and returns it. -/
def generateDeviceFingerprint (st : SecureStorageState) (dev : DeviceInfo)
    (rand rnd : Nat) : Option (Bytes × SecureStorageState) :=
  match SecureStorage.get st "device_fingerprint" with
  | some stored => some (stored, st)
  | none =>
    let fingerprint := freshFingerprint dev rand
    (SecureStorage.set st rnd "device_fingerprint" fingerprint).map
      fun st1 => (fingerprint, st1)

/-- Result record of `CryptoManager.generateMasterKeys` (base64 strings). -/
structure MasterKeysResult where
  salt : Bytes
  encPublicKey : Bytes
  encPrivateKey : Bytes
  signPublicKey : Bytes
  signPrivateKey : Bytes
  deriving DecidableEq, Repr

/-- `CryptoManager.generateMasterKeys(password)`: generates a fresh salt,
derives the master key, generates the X25519 and Ed25519 pairs, encrypts
each private key under the master key with a fresh nonce, and returns the
public keys together with the `nonce ‖ ciphertext` blobs, all base64.
Random draws, in source order: salt at `rnd`, the two keypairs at `rnd+1`
and `rnd+2`, the two nonces at `rnd+3` and `rnd+4`. -/
def generateMasterKeys (password : Bytes) (rnd : Nat) : MasterKeysResult :=
  let salt := randombytes_buf crypto_pwhash_SALTBYTES rnd
  let masterKey := deriveKeyFromPassword password salt
  let encKeyPair := crypto_kx_keypair (rnd + 1)
  let signKeyPair := crypto_sign_keypair (rnd + 2)
  let encNonce := randombytes_buf crypto_secretbox_NONCEBYTES (rnd + 3)
  let signNonce := randombytes_buf crypto_secretbox_NONCEBYTES (rnd + 4)
  let encPrivKeyEncrypted := crypto_secretbox_easy encKeyPair.privateKey encNonce masterKey
  let signPrivKeyEncrypted := crypto_secretbox_easy signKeyPair.privateKey signNonce masterKey
  let encPrivKeyCombined := encNonce ++ encPrivKeyEncrypted
  let signPrivKeyCombined := signNonce ++ signPrivKeyEncrypted
  { salt := to_base64 salt
    encPublicKey := to_base64 encKeyPair.publicKey
    encPrivateKey := to_base64 encPrivKeyCombined
    signPublicKey := to_base64 signKeyPair.publicKey
    signPrivateKey := to_base64 signPrivKeyCombined }

/-- `CryptoManager.generateDeviceKeys`: a fresh `crypto_box_keypair`,
base64-encoded. -/
def generateDeviceKeys (rnd : Nat) : KeyPair :=
  let deviceKeyPair := crypto_box_keypair rnd
  { publicKey := to_base64 deviceKeyPair.publicKey
    privateKey := to_base64 deviceKeyPair.privateKey }

/-- The string `"true"` stored under `is_master_device`. -/
def strTrue : Bytes := [116, 114, 117, 101]

/-- `CryptoManager.storeMasterKeys`: four sequential `storage.set` calls
(nonce counters `rnd` … `rnd+3`). -/
def storeMasterKeys (st : SecureStorageState) (rnd : Nat)
    (encPrivateKey signPrivateKey devicePrivateKey : Bytes) :
    Option SecureStorageState := do
  let st1 ← SecureStorage.set st rnd "master_enc_sk" encPrivateKey
  let st2 ← SecureStorage.set st1 (rnd + 1) "master_sign_sk" signPrivateKey
  let st3 ← SecureStorage.set st2 (rnd + 2) "device_sk" devicePrivateKey
  SecureStorage.set st3 (rnd + 3) "is_master_device" strTrue

/-- Result record of `CryptoManager.getMasterKeys`. -/
structure MasterKeysRecord where
  encPrivateKey : Option Bytes
  signPrivateKey : Option Bytes
  devicePrivateKey : Option Bytes
  isMasterDevice : Bool
  deriving DecidableEq, Repr

/-- `CryptoManager.getMasterKeys`. -/
def getMasterKeys (st : SecureStorageState) : MasterKeysRecord :=
  { encPrivateKey := SecureStorage.get st "master_enc_sk"
    signPrivateKey := SecureStorage.get st "master_sign_sk"
    devicePrivateKey := SecureStorage.get st "device_sk"
    isMasterDevice := SecureStorage.get st "is_master_device" = some strTrue }

/-- `CryptoManager.encryptVaultEntry(data)`: derives the symmetric entry key
by hashing the bytes of the stored `master_enc_sk` value — exactly as the
source does, with no unwrap step in between — then encrypts
`JSON.stringify(data)` under a nonce freshly drawn at `rnd` and returns
`to_base64(nonce ‖ ciphertext)`.  The missing-key throw is `none`. -/
def encryptVaultEntry (st : SecureStorageState) (rnd : Nat) (data : JsonValue) :
    Option Bytes :=
  match (getMasterKeys st).encPrivateKey with
  | none => none
  | some encPrivateKey =>
    let privateKeyBytes := from_base64 encPrivateKey
    let key := crypto_generichash 32 privateKeyBytes
    let nonce := randombytes_buf crypto_secretbox_NONCEBYTES rnd
    let message := from_string (jsonStringify data)
    let ciphertext := crypto_secretbox_easy message nonce key
    some (to_base64 (nonce ++ ciphertext))

/-- `CryptoManager.decryptVaultEntry(encryptedData)`: recomputes the same
hashed key, splits the blob and opens it; all throws are `none`. -/
def decryptVaultEntry (st : SecureStorageState) (encryptedData : Bytes) :
    Option JsonValue :=
  match (getMasterKeys st).encPrivateKey with
  | none => none
  | some encPrivateKey =>
    let privateKeyBytes := from_base64 encPrivateKey
    let key := crypto_generichash 32 privateKeyBytes
    let combined := from_base64 encryptedData
    let nonce := combined.take crypto_secretbox_NONCEBYTES
    let ciphertext := combined.drop crypto_secretbox_NONCEBYTES
    (crypto_secretbox_open_easy ciphertext nonce key).bind fun decrypted =>
      jsonParse (to_string decrypted)

/-- `CryptoManager.clearStoredKeys` (logout helper): removes the five
stored records. -/
def clearStoredKeys (st : SecureStorageState) : SecureStorageState :=
  SecureStorage.remove (SecureStorage.remove (SecureStorage.remove
    (SecureStorage.remove (SecureStorage.remove st "master_enc_sk")
      "master_sign_sk") "device_sk") "is_master_device") "device_fingerprint"

end CryptoManager

/-! ## UI flows driving the crypto core -/

/-- The JSON body sent by `registerUser` in `RegisterWithSteps.handleRegister`
(field names as in the request / the backend's `RegisterRequest`). -/
structure RegisterPayload where
  username : Bytes
  email : Bytes
  password : Bytes
  pk_encrypt : Bytes
  pk_sign : Bytes
  device_name : Bytes
  device_fingerprint : Bytes
  pk_device : Bytes
  deriving DecidableEq, Repr

/-- The field values of the payload, in source order. -/
def RegisterPayload.values (p : RegisterPayload) : List Bytes :=
  [p.username, p.email, p.password, p.pk_encrypt, p.pk_sign,
    p.device_name, p.device_fingerprint, p.pk_device]

/-- The cryptographic steps of `RegisterWithSteps.handleRegister`:
generate master keys, generate device keys, compute the device fingerprint,
store the (wrapped) private keys locally, and build the `registerUser`
payload.  Random draws in source order: `generateMasterKeys` uses
`rnd`…`rnd+4`, `generateDeviceKeys` draws at `rnd+5`, the fingerprint its
`Math.random()` at `rnd+6` and its storage nonce at `rnd+7`, and
`storeMasterKeys` uses `rnd+8`…`rnd+11`. -/
def handleRegister (st : SecureStorageState) (rnd : Nat) (dev : CryptoManager.DeviceInfo)
    (username email password deviceName : Bytes) :
    Option (RegisterPayload × SecureStorageState) := do
  let masterKeys := CryptoManager.generateMasterKeys password rnd
  let deviceKeys := CryptoManager.generateDeviceKeys (rnd + 5)
  let (deviceFingerprint, st1) ←
    CryptoManager.generateDeviceFingerprint st dev (rnd + 6) (rnd + 7)
  let st2 ← CryptoManager.storeMasterKeys st1 (rnd + 8)
    masterKeys.encPrivateKey masterKeys.signPrivateKey deviceKeys.privateKey
  pure
    ({ username := username
       email := email
       password := password
       pk_encrypt := masterKeys.encPublicKey
       pk_sign := masterKeys.signPublicKey
       device_name := deviceName
       device_fingerprint := deviceFingerprint
       pk_device := deviceKeys.publicKey }, st2)

/-- The `loginUser` server response fields used by `handleLogin`. -/
structure LoginResponse where
  is_master : Bool
  deriving DecidableEq, Repr

/-- Outcome of `LoginUpdated.handleLogin`. -/
inductive HandleLoginResult where
  | navigateVault
  | deviceNotRegistered
  | masterKeysMissing
  | failed
  deriving DecidableEq, Repr

/-- `LoginUpdated.handleLogin`: computes the device fingerprint, calls
`loginUser` (external; its response — or its throw, `none` — is an input),
then merely checks whether key records exist on the device.  It derives no
key from the password and unwraps nothing. -/
def handleLogin (st : SecureStorageState) (dev : CryptoManager.DeviceInfo)
    (rand rnd : Nat) (username password : Bytes) (server : Option LoginResponse) :
    HandleLoginResult × SecureStorageState :=
  match CryptoManager.generateDeviceFingerprint st dev rand rnd with
  | none => (.failed, st)
  | some (_deviceFingerprint, st1) =>
    match server with
    | none => (.failed, st1)
    | some response =>
      let masterKeys := CryptoManager.getMasterKeys st1
      let hasKeys := masterKeys.encPrivateKey.isSome
      if !hasKeys && !response.is_master then (.deviceNotRegistered, st1)
      else if !hasKeys && response.is_master then (.masterKeysMissing, st1)
      else (.navigateVault, st1)

/-- The authenticated-user object held by `AuthContext`. -/
structure AuthState where
  user : Option Bytes
  deriving DecidableEq, Repr

/-- `AuthContext.logout`: awaits `logoutUser()` (an external HTTP request;
a failure is caught and only logged) and sets the user to `null`.  It
touches neither the SecureStorage session key nor any stored key record. -/
def authLogout (auth : AuthState) (st : SecureStorageState) :
    AuthState × SecureStorageState :=
  ({ user := none }, st)

/-! ## A concrete end-to-end scenario

Registration in one session, tab teardown, reload, then login with the
same password.  Used as the concrete input of several claims. -/

/-- The password used at registration in the scenario. -/
def regPassword : Bytes := [7]

/-- A device's stable attributes. -/
def someDev : CryptoManager.DeviceInfo :=
  { userAgent := [1], language := [2], colorDepth := [3],
    widthXheight := [4], timezoneOffset := [5] }

/-- A browser context before `init`: no session key, empty database. -/
def emptyState : SecureStorageState :=
  { sessionKeyBuffer := [], sessionKeyLive := false, store := [] }

/-- The first session: `init` drew the session key at counter 100. -/
def sessionState : SecureStorageState :=
  SecureStorage.init emptyState 100

/-- The master keys generated at registration (draws 0…4). -/
def regKeys : CryptoManager.MasterKeysResult :=
  CryptoManager.generateMasterKeys regPassword 0

/-- The device keys generated at registration (draw 5). -/
def regDeviceKeys : KeyPair :=
  CryptoManager.generateDeviceKeys 5

/-- The state after `storeMasterKeys` persisted the wrapped private keys
(storage nonces 10…13). -/
def registeredState : SecureStorageState :=
  (CryptoManager.storeMasterKeys sessionState 10
    regKeys.encPrivateKey regKeys.signPrivateKey regDeviceKeys.privateKey).getD emptyState

/-- The state after the tab is torn down and the page is reloaded: the
`beforeunload` handler zeroized the old session key, and the new `init`
drew a fresh one at counter 200.  The database records are still there but
are encrypted under the lost key. -/
def reloadState : SecureStorageState :=
  SecureStorage.init (SecureStorage.handleBeforeUnload registeredState) 200

/-- The stale `master_enc_sk` record as it sits in the reloaded store. -/
def staleRecord : Bytes :=
  (storeGet reloadState.store "master_enc_sk").getD []

/-- A concrete registration run of `handleRegister` (password `[80]`). -/
def regRun : Option (RegisterPayload × SecureStorageState) :=
  handleRegister sessionState 0 someDev [1] [2] [80] [4]

/-- The payload produced by `regRun`. -/
def regPayload : RegisterPayload :=
  (regRun.getD (⟨[], [], [], [], [], [], [], []⟩, emptyState)).1

/-- The state after `regRun`. -/
def regAfterState : SecureStorageState :=
  (regRun.getD (⟨[], [], [], [], [], [], [], []⟩, emptyState)).2

/-- The payload values the C8 claim allows: public key material, account
identifiers, device name and fingerprint. -/
def allowedPayloadValues : List Bytes :=
  [regPayload.username, regPayload.email, regPayload.pk_encrypt,
    regPayload.pk_sign, regPayload.pk_device, regPayload.device_name,
    regPayload.device_fingerprint]

set_option maxRecDepth 400000

/-! ## Claims -/

/-- C1.  The claim states that the 32-byte key hashed in `encryptVaultEntry`
equals the hash of the plaintext X25519 private key, never of the wrapped
`nonce ‖ ciphertext` blob.  The code does the opposite: `generateMasterKeys`
returns the wrapped blob as `encKeyPair.privateKey`, `storeMasterKeys`
persists it, `getMasterKeys` returns it still wrapped, and
`encryptVaultEntry` hashes exactly those bytes.  At the concrete registered
state, the key used is the hash of the wrapped blob and differs from the
hash of the plaintext private key (the pair drawn at counter 1). -/
theorem vaultEntryKey_is_hash_of_wrapped_blob :
    (CryptoManager.getMasterKeys registeredState).encPrivateKey = some regKeys.encPrivateKey
    ∧ CryptoManager.encryptVaultEntry registeredState 30 ⟨[5]⟩ =
        some (to_base64 (randombytes_buf crypto_secretbox_NONCEBYTES 30 ++
          crypto_secretbox_easy (from_string (jsonStringify ⟨[5]⟩))
            (randombytes_buf crypto_secretbox_NONCEBYTES 30)
            (crypto_generichash 32 (from_base64 regKeys.encPrivateKey))))
    ∧ crypto_generichash 32 (from_base64 regKeys.encPrivateKey) ≠
        crypto_generichash 32 (crypto_kx_keypair 1).privateKey
    ∧ from_base64 regKeys.encPrivateKey ≠ (crypto_kx_keypair 1).privateKey := by
  decide

/-- C2.  The claim states that `unlock(correctPassword)` transitions
Locked→Unlocked and makes `decryptEntry` succeed on entries from a prior
session.  The login flow (`handleLogin`) never derives a key from the
password and never unwraps a blob: after teardown and reload of the
registration session, logging in with the CORRECT registration password
reports missing master keys, behaves identically for a wrong password, and
leaves the prior session's entry undecryptable. -/
theorem login_does_not_unlock :
    (CryptoManager.encryptVaultEntry registeredState 40 ⟨[8]⟩).bind
        (CryptoManager.decryptVaultEntry registeredState) = some ⟨[8]⟩
    ∧ (handleLogin reloadState someDev 50 51 [6] regPassword
        (some { is_master := true })).1 = HandleLoginResult.masterKeysMissing
    ∧ handleLogin reloadState someDev 50 51 [6] regPassword (some { is_master := true })
        = handleLogin reloadState someDev 50 51 [6] [9] (some { is_master := true })
    ∧ (CryptoManager.getMasterKeys (handleLogin reloadState someDev 50 51 [6]
        regPassword (some { is_master := true })).2).encPrivateKey = none
    ∧ (CryptoManager.encryptVaultEntry registeredState 40 ⟨[8]⟩).bind
        (CryptoManager.decryptVaultEntry (handleLogin reloadState someDev 50 51 [6]
          regPassword (some { is_master := true })).2) = none := by
  decide

/-- C3.  The claim states that the fingerprint is a deterministic function
of stable device characteristics with no per-call random component.  The
code appends `Math.random().toString(36).substring(2,15)` to the
components, so two fresh computations on the same device (empty store, as
after cleared state) with different random draws give different
fingerprints. -/
theorem generateDeviceFingerprint_not_deterministic :
    (CryptoManager.generateDeviceFingerprint sessionState someDev 0 60).isSome
    ∧ (CryptoManager.generateDeviceFingerprint sessionState someDev 1 60).isSome
    ∧ (CryptoManager.generateDeviceFingerprint sessionState someDev 0 60).map Prod.fst ≠
      (CryptoManager.generateDeviceFingerprint sessionState someDev 1 60).map Prod.fst := by
  decide

/-- C4 counterexample.  The claim states that on explicit logout every
secret buffer of the in-memory session state is zeroized and discarded.
`AuthContext.logout` only calls the server and clears the user object: at
the registered state it leaves the session-key buffer holding the live key
(all bytes 100, none zeroized) and even leaves the stored key records in
place. -/
theorem logout_does_not_zeroize :
    authLogout { user := some [1] } registeredState = ({ user := none }, registeredState)
    ∧ registeredState.sessionKeyLive = true
    ∧ registeredState.sessionKeyBuffer = List.replicate 32 100
    ∧ registeredState.sessionKeyBuffer ≠ sodium_memzero registeredState.sessionKeyBuffer
    ∧ storeGet (authLogout { user := some [1] } registeredState).2.store "master_enc_sk"
        ≠ none := by
  decide

/-- C4 as amended.  On process/tab teardown the `beforeunload` handler does
overwrite the in-memory session key buffer with zeros and discard the
reference; explicit logout performs no zeroization or key clearing at all —
it leaves the whole storage state (session key buffer included) unchanged
and only clears the authenticated-user object. -/
theorem teardown_zeroizes_but_logout_leaves_state (auth : AuthState)
    (st : SecureStorageState) (h : st.sessionKeyLive = true) :
    (SecureStorage.handleBeforeUnload st).sessionKeyBuffer =
      List.replicate st.sessionKeyBuffer.length 0
    ∧ (SecureStorage.handleBeforeUnload st).sessionKey = none
    ∧ authLogout auth st = ({ user := none }, st) := by
  unfold SecureStorage.handleBeforeUnload SecureStorageState.sessionKey
    sodium_memzero authLogout
  rw [h]
  simp

/-- C4 witness: the amended statement at the registered state. -/
theorem teardown_zeroizes_but_logout_leaves_state_witness :
    registeredState.sessionKeyLive = true
    ∧ ((SecureStorage.handleBeforeUnload registeredState).sessionKeyBuffer =
        List.replicate registeredState.sessionKeyBuffer.length 0
      ∧ (SecureStorage.handleBeforeUnload registeredState).sessionKey = none
      ∧ authLogout { user := some [1] } registeredState =
          ({ user := none }, registeredState)) :=
  ⟨by decide,
    teardown_zeroizes_but_logout_leaves_state { user := some [1] } registeredState
      (by decide)⟩

/-- C5.  Key-wrap round trip: for every plaintext byte string and every
wrapping key of the AEAD key size installed as the session key, decrypting
the blob produced by `SecureStorage.encryptData` with
`SecureStorage.decryptData` under the same key returns the plaintext. -/
theorem keywrap_roundtrip (st : SecureStorageState) (w k : Bytes) (rnd : Nat)
    (hw : st.sessionKey = some w) (hlen : w.length = crypto_secretbox_KEYBYTES) :
    (SecureStorage.encryptData st rnd k).bind (SecureStorage.decryptData st)
      = some k := by
  unfold SecureStorage.encryptData SecureStorage.decryptData
  rw [hw]
  have h24 : (randombytes_buf crypto_secretbox_NONCEBYTES rnd).length
      = crypto_secretbox_NONCEBYTES := by
    simp [randombytes_buf]
  simp only [Option.bind, to_base64, from_base64]
  rw [List.take_left' h24, List.drop_left' h24, crypto_secretbox_open_easy_enc]
  rfl

/-- C5 witness: the round trip at the first-session state with the 32-byte
session key drawn at counter 100. -/
theorem keywrap_roundtrip_witness :
    sessionState.sessionKey = some (List.replicate 32 100)
    ∧ (List.replicate 32 100 : Bytes).length = crypto_secretbox_KEYBYTES
    ∧ (SecureStorage.encryptData sessionState 70 [1, 2]).bind
        (SecureStorage.decryptData sessionState) = some [1, 2] :=
  ⟨by decide, by decide,
    keywrap_roundtrip sessionState (List.replicate 32 100) [1, 2] 70
      (by decide) (by decide)⟩

/-! ## Unfolding equations used by the remaining claims -/

theorem encryptData_eq (st : SecureStorageState) (rnd : Nat) (data w : Bytes)
    (hw : st.sessionKey = some w) :
    SecureStorage.encryptData st rnd data =
      some (to_base64 (randombytes_buf crypto_secretbox_NONCEBYTES rnd ++
        crypto_secretbox_easy (from_string data)
          (randombytes_buf crypto_secretbox_NONCEBYTES rnd) w)) := by
  unfold SecureStorage.encryptData
  rw [hw]

theorem decryptData_eq (st : SecureStorageState) (e w : Bytes)
    (hw : st.sessionKey = some w) :
    SecureStorage.decryptData st e =
      (crypto_secretbox_open_easy
        ((from_base64 e).drop crypto_secretbox_NONCEBYTES)
        ((from_base64 e).take crypto_secretbox_NONCEBYTES) w).map to_string := by
  unfold SecureStorage.decryptData
  rw [hw]

theorem encryptVaultEntry_eq (st : SecureStorageState) (rnd : Nat) (d : JsonValue)
    (sk : Bytes) (h : (CryptoManager.getMasterKeys st).encPrivateKey = some sk) :
    CryptoManager.encryptVaultEntry st rnd d =
      some (to_base64 (randombytes_buf crypto_secretbox_NONCEBYTES rnd ++
        crypto_secretbox_easy (from_string (jsonStringify d))
          (randombytes_buf crypto_secretbox_NONCEBYTES rnd)
          (crypto_generichash 32 (from_base64 sk)))) := by
  unfold CryptoManager.encryptVaultEntry
  rw [h]

theorem decryptVaultEntry_eq (st : SecureStorageState) (e sk : Bytes)
    (h : (CryptoManager.getMasterKeys st).encPrivateKey = some sk) :
    CryptoManager.decryptVaultEntry st e =
      (crypto_secretbox_open_easy
        ((from_base64 e).drop crypto_secretbox_NONCEBYTES)
        ((from_base64 e).take crypto_secretbox_NONCEBYTES)
        (crypto_generichash 32 (from_base64 sk))).bind
          (fun decrypted => jsonParse (to_string decrypted)) := by
  unfold CryptoManager.decryptVaultEntry
  rw [h]

theorem replicate_ne_replicate {x y : Nat} (n m : Nat) (hx : x ≠ y) (hn : 0 < n) :
    List.replicate n x ≠ List.replicate m y := by
  intro heq
  apply hx
  have hx2 : x ∈ List.replicate n x := List.mem_replicate.mpr ⟨by omega, rfl⟩
  rw [heq] at hx2
  exact List.eq_of_mem_replicate hx2

theorem freshFingerprint_ne_replicate_odd (dev : CryptoManager.DeviceInfo)
    (rand c n : Nat) :
    CryptoManager.freshFingerprint dev rand ≠ List.replicate n (2 * c + 1) := by
  intro heq
  have hmem : (124 : Nat) ∈ CryptoManager.freshFingerprint dev rand := by
    simp [CryptoManager.freshFingerprint, btoa, CryptoManager.joinPipe,
      CryptoManager.fingerprintComponents, CryptoManager.mathRandomString,
      List.intersperse]
  rw [heq] at hmem
  have h2 := List.eq_of_mem_replicate hmem
  omega

theorem generateDeviceFingerprint_fresh_eq (st : SecureStorageState)
    (dev : CryptoManager.DeviceInfo) (rand rnd : Nat)
    (hfp : SecureStorage.get st "device_fingerprint" = none) :
    CryptoManager.generateDeviceFingerprint st dev rand rnd =
      (SecureStorage.set st rnd "device_fingerprint"
        (CryptoManager.freshFingerprint dev rand)).map
          (fun st1 => (CryptoManager.freshFingerprint dev rand, st1)) := by
  unfold CryptoManager.generateDeviceFingerprint
  rw [hfp]

/-- C6.  Fail-closed decryption: flipping any single bit of the nonce or
ciphertext of a blob produced by `SecureStorage.encryptData` makes
`SecureStorage.decryptData` fail (the modelled throw, `none`, never partial
plaintext), and likewise for `encryptVaultEntry`/`decryptVaultEntry`. -/
theorem unwrap_tamper_fails :
    (∀ (st : SecureStorageState) (w data blob : Bytes) (rnd i j : Nat),
        st.sessionKey = some w →
        SecureStorage.encryptData st rnd data = some blob →
        i < (from_base64 blob).length →
        SecureStorage.decryptData st (to_base64 (flipBit (from_base64 blob) i j))
          = none)
    ∧ (∀ (st : SecureStorageState) (sk blob : Bytes) (d : JsonValue) (rnd i j : Nat),
        (CryptoManager.getMasterKeys st).encPrivateKey = some sk →
        CryptoManager.encryptVaultEntry st rnd d = some blob →
        i < blob.length →
        CryptoManager.decryptVaultEntry st (flipBit blob i j) = none) := by
  constructor
  · intro st w data blob rnd i j hw he hi
    rw [encryptData_eq st rnd data w hw] at he
    have hblob := (Option.some.inj he).symm
    subst hblob
    rw [decryptData_eq st _ w hw]
    simp only [to_base64, from_base64] at hi ⊢
    rw [crypto_secretbox_open_easy_flip (from_string data)
      (randombytes_buf crypto_secretbox_NONCEBYTES rnd) w
      (by simp [randombytes_buf]) j hi]
    rfl
  · intro st sk blob d rnd i j hsk he hi
    rw [encryptVaultEntry_eq st rnd d sk hsk] at he
    have hblob := (Option.some.inj he).symm
    subst hblob
    rw [decryptVaultEntry_eq st _ sk hsk]
    simp only [to_base64, from_base64] at hi ⊢
    rw [crypto_secretbox_open_easy_flip (from_string (jsonStringify d))
      (randombytes_buf crypto_secretbox_NONCEBYTES rnd)
      (crypto_generichash 32 sk) (by simp [randombytes_buf]) j hi]
    rfl

/-- C6 witness: both tamper statements at concrete blobs (bit 3 of byte 0
flipped). -/
theorem unwrap_tamper_fails_witness :
    (sessionState.sessionKey = some (List.replicate 32 100)
      ∧ SecureStorage.encryptData sessionState 70 [1] =
          some (to_base64 (randombytes_buf crypto_secretbox_NONCEBYTES 70 ++
            crypto_secretbox_easy (from_string [1])
              (randombytes_buf crypto_secretbox_NONCEBYTES 70)
              (List.replicate 32 100)))
      ∧ SecureStorage.decryptData sessionState
          (to_base64 (flipBit (from_base64 (to_base64
            (randombytes_buf crypto_secretbox_NONCEBYTES 70 ++
              crypto_secretbox_easy (from_string [1])
                (randombytes_buf crypto_secretbox_NONCEBYTES 70)
                (List.replicate 32 100)))) 0 3)) = none)
    ∧ ((CryptoManager.getMasterKeys registeredState).encPrivateKey =
          some regKeys.encPrivateKey
      ∧ CryptoManager.encryptVaultEntry registeredState 41 ⟨[9]⟩ =
          some (to_base64 (randombytes_buf crypto_secretbox_NONCEBYTES 41 ++
            crypto_secretbox_easy (from_string (jsonStringify ⟨[9]⟩))
              (randombytes_buf crypto_secretbox_NONCEBYTES 41)
              (crypto_generichash 32 (from_base64 regKeys.encPrivateKey))))
      ∧ CryptoManager.decryptVaultEntry registeredState
          (flipBit (to_base64 (randombytes_buf crypto_secretbox_NONCEBYTES 41 ++
            crypto_secretbox_easy (from_string (jsonStringify ⟨[9]⟩))
              (randombytes_buf crypto_secretbox_NONCEBYTES 41)
              (crypto_generichash 32 (from_base64 regKeys.encPrivateKey)))) 0 3)
          = none) :=
  ⟨⟨by decide, by decide,
      unwrap_tamper_fails.1 sessionState (List.replicate 32 100) [1] _ 70 0 3
        (by decide) rfl (by decide)⟩,
    ⟨by decide, by decide,
      unwrap_tamper_fails.2 registeredState regKeys.encPrivateKey _ ⟨[9]⟩ 41 0 3
        (by decide) rfl (by decide)⟩⟩

/-- C7.  Every call to `encryptVaultEntry` draws its nonce inside the
function from the random source (the definition takes no caller nonce), the
returned value is the base64 encoding of `nonce ‖ ciphertext` with the
nonce in the first `crypto_secretbox_NONCEBYTES` bytes, and draws at
distinct counters give distinct nonces. -/
theorem encryptVaultEntry_fresh_nonce_format (st : SecureStorageState)
    (rnd : Nat) (d : JsonValue) (sk : Bytes)
    (h : (CryptoManager.getMasterKeys st).encPrivateKey = some sk) :
    CryptoManager.encryptVaultEntry st rnd d =
      some (to_base64 (randombytes_buf crypto_secretbox_NONCEBYTES rnd ++
        crypto_secretbox_easy (from_string (jsonStringify d))
          (randombytes_buf crypto_secretbox_NONCEBYTES rnd)
          (crypto_generichash 32 (from_base64 sk))))
    ∧ (randombytes_buf crypto_secretbox_NONCEBYTES rnd).length
        = crypto_secretbox_NONCEBYTES
    ∧ (from_base64 (to_base64 (randombytes_buf crypto_secretbox_NONCEBYTES rnd ++
        crypto_secretbox_easy (from_string (jsonStringify d))
          (randombytes_buf crypto_secretbox_NONCEBYTES rnd)
          (crypto_generichash 32 (from_base64 sk))))).take
            crypto_secretbox_NONCEBYTES
        = randombytes_buf crypto_secretbox_NONCEBYTES rnd
    ∧ ∀ rnd2, rnd2 ≠ rnd →
        randombytes_buf crypto_secretbox_NONCEBYTES rnd2 ≠
          randombytes_buf crypto_secretbox_NONCEBYTES rnd := by
  refine ⟨encryptVaultEntry_eq st rnd d sk h, by simp [randombytes_buf], ?_, ?_⟩
  · simp only [to_base64, from_base64]
    exact List.take_left' (by simp [randombytes_buf])
  · intro rnd2 hne
    exact replicate_ne_replicate _ _ hne (by decide)

/-- C7 witness: the statement at the registered state. -/
theorem encryptVaultEntry_fresh_nonce_format_witness :
    (CryptoManager.getMasterKeys registeredState).encPrivateKey =
        some regKeys.encPrivateKey
    ∧ CryptoManager.encryptVaultEntry registeredState 42 ⟨[3]⟩ =
        some (to_base64 (randombytes_buf crypto_secretbox_NONCEBYTES 42 ++
          crypto_secretbox_easy (from_string (jsonStringify ⟨[3]⟩))
            (randombytes_buf crypto_secretbox_NONCEBYTES 42)
            (crypto_generichash 32 (from_base64 regKeys.encPrivateKey)))) :=
  ⟨by decide,
    (encryptVaultEntry_fresh_nonce_format registeredState 42 ⟨[3]⟩
      regKeys.encPrivateKey (by decide)).1⟩

/-- C8 counterexample.  The claim states that the registration payload
contains only public key material, account identifiers, device name and
fingerprint.  At a concrete registration the payload also carries the
plaintext account password, which is none of those values. -/
theorem register_payload_contains_password :
    regRun = some (regPayload, regAfterState)
    ∧ regPayload.password = [80]
    ∧ regPayload.password ∈ RegisterPayload.values regPayload
    ∧ regPayload.password ∉ allowedPayloadValues := by
  decide

/-- C8 as amended.  The registration payload contains exactly the account
identifiers, the plaintext account password, the device name, the freshly
computed fingerprint, and the three public keys; it never contains a
plaintext private key — every key-material field it carries is a public
half, distinct from each private key generated by the flow. -/
theorem register_payload_fields (st : SecureStorageState) (rnd : Nat)
    (dev : CryptoManager.DeviceInfo) (username email password deviceName : Bytes)
    (p : RegisterPayload) (st2 : SecureStorageState)
    (hfp : SecureStorage.get st "device_fingerprint" = none)
    (h : handleRegister st rnd dev username email password deviceName
      = some (p, st2)) :
    (p.username = username ∧ p.email = email ∧ p.password = password
      ∧ p.device_name = deviceName
      ∧ p.pk_encrypt = (CryptoManager.generateMasterKeys password rnd).encPublicKey
      ∧ p.pk_sign = (CryptoManager.generateMasterKeys password rnd).signPublicKey
      ∧ p.pk_device = (CryptoManager.generateDeviceKeys (rnd + 5)).publicKey
      ∧ p.device_fingerprint = CryptoManager.freshFingerprint dev (rnd + 6))
    ∧ ∀ skv ∈ [(crypto_kx_keypair (rnd + 1)).privateKey,
        (crypto_sign_keypair (rnd + 2)).privateKey,
        (crypto_box_keypair (rnd + 5)).privateKey],
        p.pk_encrypt ≠ skv ∧ p.pk_sign ≠ skv ∧ p.pk_device ≠ skv
        ∧ p.device_fingerprint ≠ skv := by
  simp only [handleRegister,
    generateDeviceFingerprint_fresh_eq st dev (rnd + 6) (rnd + 7) hfp] at h
  cases hset : SecureStorage.set st (rnd + 7) "device_fingerprint"
      (CryptoManager.freshFingerprint dev (rnd + 6)) with
  | none => rw [hset] at h; simp at h
  | some st1 =>
    rw [hset] at h
    simp only [Option.map_some', Option.bind_eq_bind, Option.some_bind] at h
    cases hstore : CryptoManager.storeMasterKeys st1 (rnd + 8)
        (CryptoManager.generateMasterKeys password rnd).encPrivateKey
        (CryptoManager.generateMasterKeys password rnd).signPrivateKey
        (CryptoManager.generateDeviceKeys (rnd + 5)).privateKey with
    | none => rw [hstore] at h; simp at h
    | some st3 =>
      rw [hstore] at h
      simp only [Option.bind_eq_bind, Option.some_bind, Option.pure_def] at h
      have hp := (Prod.mk.injEq _ _ _ _).mp (Option.some.inj h)
      obtain ⟨hp1, -⟩ := hp
      subst hp1
      refine ⟨⟨rfl, rfl, rfl, rfl, rfl, rfl, rfl, rfl⟩, ?_⟩
      intro skv hskv
      have hpkE : (CryptoManager.generateMasterKeys password rnd).encPublicKey
          = List.replicate 32 (2 * (rnd + 1)) := by
        simp [CryptoManager.generateMasterKeys, crypto_kx_keypair, to_base64]
      have hpkS : (CryptoManager.generateMasterKeys password rnd).signPublicKey
          = List.replicate 32 (2 * (rnd + 2)) := by
        simp [CryptoManager.generateMasterKeys, crypto_sign_keypair, to_base64]
      have hpkD : (CryptoManager.generateDeviceKeys (rnd + 5)).publicKey
          = List.replicate 32 (2 * (rnd + 5)) := by
        simp [CryptoManager.generateDeviceKeys, crypto_box_keypair, to_base64]
      simp only [List.mem_cons, List.not_mem_nil, or_false] at hskv
      rcases hskv with rfl | rfl | rfl <;>
        refine ⟨?_, ?_, ?_, ?_⟩ <;>
        simp only [hpkE, hpkS, hpkD, crypto_kx_keypair, crypto_sign_keypair,
          crypto_box_keypair] <;>
        first
          | exact replicate_ne_replicate _ _ (by omega) (by omega)
          | exact freshFingerprint_ne_replicate_odd dev (rnd + 6) _ _

/-- C8 witness: the amended statement at the concrete registration run. -/
theorem register_payload_fields_witness :
    SecureStorage.get sessionState "device_fingerprint" = none
    ∧ regRun = some (regPayload, regAfterState)
    ∧ regPayload.password = [80]
    ∧ regPayload.pk_encrypt = (CryptoManager.generateMasterKeys [80] 0).encPublicKey :=
  ⟨by decide, by decide,
    ((register_payload_fields sessionState 0 someDev [1] [2] [80] [4]
      regPayload regAfterState (by decide) (by decide)).1).2.2.1,
    ((register_payload_fields sessionState 0 someDev [1] [2] [80] [4]
      regPayload regAfterState (by decide) (by decide)).1).2.2.2.2.1⟩

/-- C9.  Vault-entry round trip within one session: with a stored master
encryption key unchanged between the calls, decrypting the encryption of
any JSON-serializable value returns a structurally equal value. -/
theorem vault_entry_roundtrip (st : SecureStorageState) (rnd : Nat)
    (d : JsonValue) (sk : Bytes)
    (h : (CryptoManager.getMasterKeys st).encPrivateKey = some sk) :
    (CryptoManager.encryptVaultEntry st rnd d).bind
      (CryptoManager.decryptVaultEntry st) = some d := by
  have h24 : (randombytes_buf crypto_secretbox_NONCEBYTES rnd).length
      = crypto_secretbox_NONCEBYTES := by
    simp [randombytes_buf]
  rw [encryptVaultEntry_eq st rnd d sk h]
  simp only [Option.bind]
  rw [decryptVaultEntry_eq st _ sk h]
  simp only [to_base64, from_base64]
  rw [List.take_left' h24, List.drop_left' h24, crypto_secretbox_open_easy_enc]
  rfl

/-- C9 witness: the round trip at the registered state. -/
theorem vault_entry_roundtrip_witness :
    (CryptoManager.getMasterKeys registeredState).encPrivateKey =
        some regKeys.encPrivateKey
    ∧ (CryptoManager.encryptVaultEntry registeredState 43 ⟨[2, 4]⟩).bind
        (CryptoManager.decryptVaultEntry registeredState) = some ⟨[2, 4]⟩ :=
  ⟨by decide,
    vault_entry_roundtrip registeredState 43 ⟨[2, 4]⟩ regKeys.encPrivateKey
      (by decide)⟩

/-- C10.  `SecureStorage.get` never propagates a decryption failure: when
the record exists but `decryptData` fails (for example because a reload
replaced the session key), `get` resolves `null`, indistinguishable from
the record being absent. -/
theorem secureStorage_get_null_on_decrypt_failure (st : SecureStorageState)
    (key : String) (record : Bytes)
    (hrec : storeGet st.store key = some record)
    (hfail : SecureStorage.decryptData st record = none) :
    SecureStorage.get st key = none := by
  unfold SecureStorage.get
  simp only [hrec, hfail]

/-- C10 witness: at the reloaded state the stale `master_enc_sk` record is
present, fails to decrypt under the fresh session key, and `get` resolves
`null`. -/
theorem secureStorage_get_null_on_decrypt_failure_witness :
    storeGet reloadState.store "master_enc_sk" = some staleRecord
    ∧ SecureStorage.decryptData reloadState staleRecord = none
    ∧ SecureStorage.get reloadState "master_enc_sk" = none :=
  ⟨by decide, by decide,
    secureStorage_get_null_on_decrypt_failure reloadState "master_enc_sk"
      staleRecord (by decide) (by decide)⟩

end Pswd
